import Mathlib

/-!
Shallow embedding of the core pairing logic of `app.py` (class
`ProductionRotation`): station universe, per-line configuration of
non-operational and fixed (accommodated) stations, mirror pairing, the
accommodation-aware pair generation for line C, and the schedule builder.

Python dictionaries are embedded as functions `String → Option (List Int)`
(`dict.get(k, default)` becomes `(f k).getD default`); `sorted(list(set(x)))`
is embedded as `sortDedup` (sorting the deduplicated list); `sorted(x)` as
`List.insertionSort (· ≤ ·)`; the loop in `mirror_pair` that appends one
string per index is embedded as a map over `List.range`.  The wall-clock
read `datetime.now().strftime(...)` in `generate_schedule` is an effectful
read of external state, so the embedding passes its result as an explicit
argument.
-/

/-- `LINES: List[str] = ['B', 'C', 'L', 'M', 'N', 'O']` from `app.py`. -/
def LINES : List String := ["B", "C", "L", "M", "N", "O"]

/-- `STATIONS: List[int] = list(range(1, 21))` from `app.py`. -/
def STATIONS : List Int :=
  [1, 2, 3, 4, 5, 6, 7, 8, 9, 10, 11, 12, 13, 14, 15, 16, 17, 18, 19, 20]

/-- Embedding of Python `sorted(list(set(x)))`: the ascending enumeration of
the distinct elements of `x`. -/
def sortDedup (l : List Int) : List Int :=
  List.insertionSort (· ≤ ·) l.dedup

/-- Renders a pair the way the f-strings `f"{a}-{b}"` in `app.py` do. -/
def pairStr (a b : Int) : String :=
  toString a ++ "-" ++ toString b

/-- State of a `ProductionRotation` object: the fields set in `__init__`,
with the two Python dicts as partial maps. -/
structure ProductionRotation where
  lines : List String
  stations : List Int
  non_operational_stations : String → Option (List Int)
  fixed_stations : String → Option (List Int)

/-- `ProductionRotation.__init__`: lines and stations are the module
constants; both dicts start empty. -/
def ProductionRotation.init : ProductionRotation where
  lines := LINES
  stations := STATIONS
  non_operational_stations := fun _ => none
  fixed_stations := fun _ => none

/-- `set_non_operational`: stores `sorted(list(set(stations)))` under `line`. -/
def ProductionRotation.set_non_operational (r : ProductionRotation) (line : String)
    (stations : List Int) : ProductionRotation :=
  { r with non_operational_stations :=
      Function.update r.non_operational_stations line (some (sortDedup stations)) }

/-- `set_fixed`: stores `sorted(list(set(stations)))` under `line`. -/
def ProductionRotation.set_fixed (r : ProductionRotation) (line : String)
    (stations : List Int) : ProductionRotation :=
  { r with fixed_stations :=
      Function.update r.fixed_stations line (some (sortDedup stations)) }

/-- `get_operational_stations`:
`sorted([s for s in self.stations if s not in temp_non_operational])` where
`temp_non_operational = self.non_operational_stations.get(line, [])`. -/
def ProductionRotation.get_operational_stations (r : ProductionRotation)
    (line : String) : List Int :=
  List.insertionSort (· ≤ ·)
    (r.stations.filter
      (fun s => decide (s ∉ (r.non_operational_stations line).getD [])))

/-- The local `valid_fixed` of `generate_pairs`:
`[s for s in fixed_c_stations if s in operational]` with
`fixed_c_stations = self.fixed_stations.get(line, [])`. -/
def ProductionRotation.valid_fixed (r : ProductionRotation) (line : String) : List Int :=
  ((r.fixed_stations line).getD []).filter
    (fun s => decide (s ∈ r.get_operational_stations line))

/-- The local `remaining_for_pairing` of `generate_pairs`:
`[s for s in operational if s not in valid_fixed]`. -/
def ProductionRotation.remaining_for_pairing (r : ProductionRotation)
    (line : String) : List Int :=
  (r.get_operational_stations line).filter
    (fun s => decide (s ∉ r.valid_fixed line))

/-- `mirror_pair`: sort-deduplicate, then for `i in range(n // 2)` append
`f"{s[i]}-{s[n-1-i]}"`, and if `n` is odd append the middle self-pair. -/
def ProductionRotation.mirror_pair (stations_to_pair : List Int) : List String :=
  (List.range ((sortDedup stations_to_pair).length / 2)).map
      (fun i =>
        pairStr ((sortDedup stations_to_pair).getD i 0)
          ((sortDedup stations_to_pair).getD
            ((sortDedup stations_to_pair).length - 1 - i) 0)) ++
    (if (sortDedup stations_to_pair).length % 2 ≠ 0 then
      [pairStr ((sortDedup stations_to_pair).getD ((sortDedup stations_to_pair).length / 2) 0)
        ((sortDedup stations_to_pair).getD ((sortDedup stations_to_pair).length / 2) 0)]
    else [])

/-- The pairs produced by `mirror_pair`, before rendering them as strings:
same index computation, endpoints kept as integers. -/
def ProductionRotation.mirror_pair_core (stations_to_pair : List Int) : List (Int × Int) :=
  (List.range ((sortDedup stations_to_pair).length / 2)).map
      (fun i =>
        (((sortDedup stations_to_pair).getD i 0),
          ((sortDedup stations_to_pair).getD
            ((sortDedup stations_to_pair).length - 1 - i) 0))) ++
    (if (sortDedup stations_to_pair).length % 2 ≠ 0 then
      [(((sortDedup stations_to_pair).getD ((sortDedup stations_to_pair).length / 2) 0),
        ((sortDedup stations_to_pair).getD ((sortDedup stations_to_pair).length / 2) 0))]
    else [])

/-- `generate_pairs`: early return `[]` on empty operational set; on line
`'C'` emit the fixed self-pairs then the mirror pairs of the remaining
stations; on every other line mirror-pair the operational stations. -/
def ProductionRotation.generate_pairs (r : ProductionRotation) (line : String) :
    List String :=
  if (r.get_operational_stations line).isEmpty then []
  else if line = "C" then
    (r.valid_fixed line).map (fun s => pairStr s s) ++
      ProductionRotation.mirror_pair (r.remaining_for_pairing line)
  else
    ProductionRotation.mirror_pair (r.get_operational_stations line)

/-- The pairs produced by `generate_pairs`, before rendering as strings. -/
def ProductionRotation.generate_pairs_core (r : ProductionRotation) (line : String) :
    List (Int × Int) :=
  if (r.get_operational_stations line).isEmpty then []
  else if line = "C" then
    (r.valid_fixed line).map (fun s => (s, s)) ++
      ProductionRotation.mirror_pair_core (r.remaining_for_pairing line)
  else
    ProductionRotation.mirror_pair_core (r.get_operational_stations line)

/-- `generate_schedule`: builds `{line: generate_pairs(line)}` over
`self.lines` and returns it with the date stamp.  The Python method computes
`date_str = datetime.now().strftime("%m/%d/%Y")` internally — an effectful
read of the wall clock — so the embedding takes the string that read returns
as the explicit argument `now_mm_dd_yyyy`. -/
def ProductionRotation.generate_schedule (now_mm_dd_yyyy : String)
    (r : ProductionRotation) : String × List (String × List String) :=
  (now_mm_dd_yyyy, r.lines.map (fun line_code => (line_code, r.generate_pairs line_code)))

/-- One call to a configuration setter of `ProductionRotation`. -/
inductive ConfigOp where
  | setNonOp (line : String) (stations : List Int)
  | setFixed (line : String) (stations : List Int)

/-- Runs one setter call on a state. -/
def applyOp (r : ProductionRotation) : ConfigOp → ProductionRotation
  | ConfigOp.setNonOp line stations => r.set_non_operational line stations
  | ConfigOp.setFixed line stations => r.set_fixed line stations

/-- Runs a sequence of setter calls, oldest first. -/
def applyOps (r : ProductionRotation) (ops : List ConfigOp) : ProductionRotation :=
  ops.foldl applyOp r

/-- States a `ProductionRotation` object can actually be in: the constant
fields keep their `__init__` values and every stored configuration list is
strictly ascending (sorted and deduplicated), as the setters guarantee. -/
def WF (r : ProductionRotation) : Prop :=
  r.lines = LINES ∧ r.stations = STATIONS ∧
    (∀ line l, r.non_operational_stations line = some l → l.Sorted (· < ·)) ∧
    (∀ line l, r.fixed_stations line = some l → l.Sorted (· < ·))

/-- The spec's `validFixed` extended to an arbitrary line: `fixed ∩
operational` on the accommodation line C, empty on every other line (where
`fixed` is never consulted). -/
def ProductionRotation.specValidFixed (r : ProductionRotation) (line : String) : List Int :=
  if line = "C" then r.valid_fixed line else []

/-- The spec's `remaining = operational − validFixed`. -/
def ProductionRotation.specRemaining (r : ProductionRotation) (line : String) : List Int :=
  (r.get_operational_stations line).filter (fun s => decide (s ∉ r.specValidFixed line))

/-! ### Basic facts about `sortDedup` -/

theorem sortDedup_perm_dedup (l : List Int) : (sortDedup l).Perm l.dedup :=
  List.perm_insertionSort (· ≤ ·) l.dedup

theorem sortDedup_sorted_le (l : List Int) : (sortDedup l).Sorted (· ≤ ·) :=
  List.sorted_insertionSort (· ≤ ·) l.dedup

theorem sortDedup_nodup (l : List Int) : (sortDedup l).Nodup :=
  (sortDedup_perm_dedup l).nodup_iff.mpr (List.nodup_dedup l)

theorem sortDedup_sorted_lt (l : List Int) : (sortDedup l).Sorted (· < ·) :=
  (sortDedup_sorted_le l).lt_of_le (sortDedup_nodup l)

theorem mem_sortDedup {a : Int} {l : List Int} : a ∈ sortDedup l ↔ a ∈ l := by
  rw [(sortDedup_perm_dedup l).mem_iff, List.mem_dedup]

theorem sortDedup_eq_of_perm {l₁ l₂ : List Int} (h : l₁.Perm l₂) :
    sortDedup l₁ = sortDedup l₂ :=
  List.eq_of_perm_of_sorted
    ((sortDedup_perm_dedup l₁).trans (h.dedup.trans (sortDedup_perm_dedup l₂).symm))
    (sortDedup_sorted_le l₁) (sortDedup_sorted_le l₂)

theorem sortDedup_eq_self {l : List Int} (h : l.Sorted (· < ·)) : sortDedup l = l :=
  List.eq_of_perm_of_sorted
    (by rw [sortDedup, (List.Sorted.nodup h).dedup]; exact List.perm_insertionSort _ l)
    (sortDedup_sorted_le l) (h.imp le_of_lt)

theorem sortDedup_idem (l : List Int) : sortDedup (sortDedup l) = sortDedup l :=
  sortDedup_eq_self (sortDedup_sorted_lt l)

theorem sortDedup_length_of_nodup {l : List Int} (h : l.Nodup) :
    (sortDedup l).length = l.length :=
  ((sortDedup_perm_dedup l).trans (by rw [h.dedup])).length_eq

/-! ### Counting helpers -/

theorem countP_range_eq_one {m k : Nat} {p : Nat → Bool} (hk : k < m) (hpk : p k = true)
    (huniq : ∀ i, i < m → p i = true → i = k) : (List.range m).countP p = 1 := by
  induction m with
  | zero => omega
  | succ m ih =>
    rw [List.range_succ, List.countP_append]
    rcases Nat.lt_or_ge k m with hkm | hkm
    · have h1 : (List.range m).countP p = 1 :=
        ih hkm (fun i hi hp => huniq i (by omega) hp)
      have h2 : p m = false := by
        rcases Bool.eq_false_or_eq_true (p m) with h | h
        · exact absurd (huniq m (by omega) h) (by omega)
        · exact h
      simp [List.countP_cons, h1, h2]
    · have hkm' : k = m := by omega
      subst hkm'
      have h1 : (List.range k).countP p = 0 := by
        rw [List.countP_eq_zero]
        intro i hi hp
        have := huniq i (by simp [List.mem_range] at hi; omega) hp
        simp [List.mem_range] at hi
        omega
      simp [List.countP_cons, h1, hpk]

theorem countP_range_eq_zero {m : Nat} {p : Nat → Bool}
    (h : ∀ i, i < m → p i = false) : (List.range m).countP p = 0 := by
  rw [List.countP_eq_zero]
  intro i hi
  simp [List.mem_range] at hi
  simp [h i hi]

theorem countP_eq_singleton_of_nodup {v : List Int} {t : Int} (hv : v.Nodup) :
    v.countP (fun s => decide (s = t)) = if t ∈ v then 1 else 0 := by
  induction v with
  | nil => simp
  | cons a v ih =>
    obtain ⟨ha, hv'⟩ := List.nodup_cons.mp hv
    rw [List.countP_cons, ih hv']
    by_cases hat : a = t
    · subst hat
      simp [ha]
    · by_cases htv : t ∈ v <;> simp [hat, htv, Ne.symm hat]

/-! ### Facts about `mirror_pair` / `mirror_pair_core` -/

namespace ProductionRotation

theorem mirror_pair_eq_core (l : List Int) :
    mirror_pair l = (mirror_pair_core l).map (fun p => pairStr p.1 p.2) := by
  simp only [mirror_pair, mirror_pair_core, List.map_append, List.map_map,
    apply_ite (List.map (fun p : Int × Int => pairStr p.1 p.2))]
  simp

theorem mirror_pair_core_length (l : List Int) :
    (mirror_pair_core l).length = ((sortDedup l).length + 1) / 2 := by
  simp only [mirror_pair_core, List.length_append, List.length_map, List.length_range]
  by_cases h : (sortDedup l).length % 2 = 0 <;> simp [h] <;> omega

theorem mem_of_mem_mirror_pair_core {l : List Int} {p : Int × Int}
    (hp : p ∈ mirror_pair_core l) : p.1 ∈ sortDedup l ∧ p.2 ∈ sortDedup l := by
  simp only [mirror_pair_core, List.mem_append, List.mem_map, List.mem_range] at hp
  rcases hp with ⟨i, hi, rfl⟩ | hp
  · dsimp only
    constructor
    · rw [List.getD_eq_getElem _ _ (by omega)]
      exact List.getElem_mem _
    · rw [List.getD_eq_getElem _ _ (by omega)]
      exact List.getElem_mem _
  · by_cases h : (sortDedup l).length % 2 = 0
    · simp [h] at hp
    · simp only [h, ne_eq, not_false_iff, if_true, List.mem_singleton] at hp
      subst hp
      rw [List.getD_eq_getElem _ _ (by omega)]
      exact ⟨List.getElem_mem _, List.getElem_mem _⟩

theorem countP_self_pairs {v : List Int} (hv : v.Nodup) (t : Int) :
    (v.map (fun s => ((s : Int), s))).countP (fun p => decide (p.1 = t ∨ p.2 = t)) =
      if t ∈ v then 1 else 0 := by
  rw [List.countP_map]
  have hfun : ((fun p : Int × Int => decide (p.1 = t ∨ p.2 = t)) ∘ fun s => (s, s)) =
      fun s => decide (s = t) := by
    funext s
    simp
  rw [hfun, countP_eq_singleton_of_nodup hv]

theorem mirror_pair_core_countP_eq_one {l : List Int} {s : Int} (hs : s ∈ sortDedup l) :
    (mirror_pair_core l).countP (fun p => decide (p.1 = s ∨ p.2 = s)) = 1 := by
  obtain ⟨k, hk, hdk⟩ := List.mem_iff_getElem.mp hs
  have hnd : (sortDedup l).Nodup := sortDedup_nodup l
  have hinj : ∀ i j, ∀ hi : i < (sortDedup l).length, ∀ hj : j < (sortDedup l).length,
      (sortDedup l).getD i 0 = (sortDedup l).getD j 0 → i = j := by
    intro i j hi hj hij
    rw [List.getD_eq_getElem _ _ hi, List.getD_eq_getElem _ _ hj] at hij
    exact (hnd.getElem_inj_iff).mp hij
  have hgetk : (sortDedup l).getD k 0 = s := by
    rw [List.getD_eq_getElem _ _ hk]
    exact hdk
  rw [mirror_pair_core, List.countP_append, List.countP_map]
  rcases Nat.lt_or_ge k ((sortDedup l).length / 2) with hklow | hkge
  · -- s sits in the lower half: counted by pair index k, nowhere else
    have hrange : (List.range ((sortDedup l).length / 2)).countP
        ((fun p : Int × Int => decide (p.1 = s ∨ p.2 = s)) ∘ fun i =>
          ((sortDedup l).getD i 0,
            (sortDedup l).getD ((sortDedup l).length - 1 - i) 0)) = 1 := by
      refine countP_range_eq_one hklow ?_ ?_
      · simp only [Function.comp_apply, decide_eq_true_eq]
        exact Or.inl hgetk
      · intro i hi hp
        simp only [Function.comp_apply, decide_eq_true_eq] at hp
        rcases hp with hp | hp
        · exact hinj i k (by omega) hk (hp.trans hgetk.symm)
        · have := hinj ((sortDedup l).length - 1 - i) k (by omega) hk (hp.trans hgetk.symm)
          omega
    have hmid : (if (sortDedup l).length % 2 ≠ 0 then
        [((sortDedup l).getD ((sortDedup l).length / 2) 0,
          (sortDedup l).getD ((sortDedup l).length / 2) 0)] else []).countP
        (fun p : Int × Int => decide (p.1 = s ∨ p.2 = s)) = 0 := by
      by_cases hpar : (sortDedup l).length % 2 = 0
      · simp [hpar]
      · simp only [hpar, ne_eq, not_false_iff, if_true]
        rw [List.countP_eq_zero]
        intro p hp
        simp only [List.mem_singleton] at hp
        subst hp
        simp only [decide_eq_true_eq, or_self]
        intro hmid_eq
        have := hinj ((sortDedup l).length / 2) k (by omega) hk (hmid_eq.trans hgetk.symm)
        omega
    omega
  rcases Nat.lt_or_ge ((sortDedup l).length - 1 - k) ((sortDedup l).length / 2) with hkhigh | hkmid
  · -- s sits in the upper half: counted by pair index n-1-k, nowhere else
    have hrange : (List.range ((sortDedup l).length / 2)).countP
        ((fun p : Int × Int => decide (p.1 = s ∨ p.2 = s)) ∘ fun i =>
          ((sortDedup l).getD i 0,
            (sortDedup l).getD ((sortDedup l).length - 1 - i) 0)) = 1 := by
      refine countP_range_eq_one hkhigh ?_ ?_
      · simp only [Function.comp_apply, decide_eq_true_eq]
        refine Or.inr ?_
        have hsub : (sortDedup l).length - 1 - ((sortDedup l).length - 1 - k) = k := by omega
        rw [hsub]
        exact hgetk
      · intro i hi hp
        simp only [Function.comp_apply, decide_eq_true_eq] at hp
        rcases hp with hp | hp
        · have := hinj i k (by omega) hk (hp.trans hgetk.symm)
          omega
        · have := hinj ((sortDedup l).length - 1 - i) k (by omega) hk (hp.trans hgetk.symm)
          omega
    have hmid : (if (sortDedup l).length % 2 ≠ 0 then
        [((sortDedup l).getD ((sortDedup l).length / 2) 0,
          (sortDedup l).getD ((sortDedup l).length / 2) 0)] else []).countP
        (fun p : Int × Int => decide (p.1 = s ∨ p.2 = s)) = 0 := by
      by_cases hpar : (sortDedup l).length % 2 = 0
      · simp [hpar]
      · simp only [hpar, ne_eq, not_false_iff, if_true]
        rw [List.countP_eq_zero]
        intro p hp
        simp only [List.mem_singleton] at hp
        subst hp
        simp only [decide_eq_true_eq, or_self]
        intro hmid_eq
        have := hinj ((sortDedup l).length / 2) k (by omega) hk (hmid_eq.trans hgetk.symm)
        omega
    omega
  · -- s is the middle element of an odd-length list: counted by the self-pair only
    have hodd : (sortDedup l).length % 2 = 1 ∧ k = (sortDedup l).length / 2 := by omega
    have hrange : (List.range ((sortDedup l).length / 2)).countP
        ((fun p : Int × Int => decide (p.1 = s ∨ p.2 = s)) ∘ fun i =>
          ((sortDedup l).getD i 0,
            (sortDedup l).getD ((sortDedup l).length - 1 - i) 0)) = 0 := by
      refine countP_range_eq_zero ?_
      intro i hi
      simp only [Function.comp_apply]
      rw [decide_eq_false_iff_not]
      intro hp
      rcases hp with hp | hp
      · have := hinj i k (by omega) hk (hp.trans hgetk.symm)
        omega
      · have := hinj ((sortDedup l).length - 1 - i) k (by omega) hk (hp.trans hgetk.symm)
        omega
    have hmid : (if (sortDedup l).length % 2 ≠ 0 then
        [((sortDedup l).getD ((sortDedup l).length / 2) 0,
          (sortDedup l).getD ((sortDedup l).length / 2) 0)] else []).countP
        (fun p : Int × Int => decide (p.1 = s ∨ p.2 = s)) = 1 := by
      have hpar : (sortDedup l).length % 2 ≠ 0 := by omega
      simp only [hpar, ne_eq, not_false_iff, if_true]
      have hx : (sortDedup l).getD ((sortDedup l).length / 2) 0 = s := by
        have hk2 : k = (sortDedup l).length / 2 := hodd.2
        rw [← hk2]
        exact hgetk
      simp only [List.countP_cons, List.countP_nil, hx]
      simp
    omega

theorem mirror_pair_core_countP_eq_zero {l : List Int} {s : Int} (hs : s ∉ sortDedup l) :
    (mirror_pair_core l).countP (fun p => decide (p.1 = s ∨ p.2 = s)) = 0 := by
  rw [List.countP_eq_zero]
  intro p hp
  have hmem := mem_of_mem_mirror_pair_core hp
  simp only [decide_eq_true_eq]
  rintro (h1 | h2)
  · exact hs (h1 ▸ hmem.1)
  · exact hs (h2 ▸ hmem.2)

end ProductionRotation

/-! ### Facts about the object state -/

namespace ProductionRotation

theorem WF_init : WF ProductionRotation.init := by
  refine ⟨rfl, rfl, ?_, ?_⟩ <;> intro line l h <;>
    simp [ProductionRotation.init] at h

theorem WF_applyOp {r : ProductionRotation} (h : WF r) (op : ConfigOp) :
    WF (applyOp r op) := by
  obtain ⟨hl, hs, hno, hf⟩ := h
  cases op with
  | setNonOp line stations =>
    refine ⟨hl, hs, ?_, hf⟩
    intro line' l hl'
    simp only [applyOp, ProductionRotation.set_non_operational] at hl'
    by_cases he : line' = line
    · subst he
      rw [Function.update_same] at hl'
      cases hl'
      exact sortDedup_sorted_lt _
    · rw [Function.update_noteq he] at hl'
      exact hno line' l hl'
  | setFixed line stations =>
    refine ⟨hl, hs, hno, ?_⟩
    intro line' l hl'
    simp only [applyOp, ProductionRotation.set_fixed] at hl'
    by_cases he : line' = line
    · subst he
      rw [Function.update_same] at hl'
      cases hl'
      exact sortDedup_sorted_lt _
    · rw [Function.update_noteq he] at hl'
      exact hf line' l hl'

theorem WF_applyOps {r : ProductionRotation} (h : WF r) (ops : List ConfigOp) :
    WF (applyOps r ops) := by
  induction ops generalizing r with
  | nil => exact h
  | cons op ops ih =>
    simp only [applyOps, List.foldl_cons]
    exact ih (WF_applyOp h op)

/-! ### Facts about `get_operational_stations` -/

theorem get_operational_eq_filter {r : ProductionRotation} (h : r.stations = STATIONS)
    (line : String) :
    r.get_operational_stations line =
      STATIONS.filter
        (fun s => decide (s ∉ (r.non_operational_stations line).getD [])) := by
  rw [ProductionRotation.get_operational_stations, h]
  exact List.eq_of_perm_of_sorted (List.perm_insertionSort _ _)
    (List.sorted_insertionSort _ _)
    (List.Sorted.filter _ (by decide : STATIONS.Sorted (· ≤ ·)))

theorem get_operational_sorted_lt {r : ProductionRotation} (h : r.stations = STATIONS)
    (line : String) : (r.get_operational_stations line).Sorted (· < ·) := by
  rw [get_operational_eq_filter h line]
  exact List.Sorted.filter _ (by decide : STATIONS.Sorted (· < ·))

theorem get_operational_nodup {r : ProductionRotation} (h : r.stations = STATIONS)
    (line : String) : (r.get_operational_stations line).Nodup :=
  (get_operational_sorted_lt h line).nodup

theorem mem_get_operational {r : ProductionRotation} {line : String} {s : Int} :
    s ∈ r.get_operational_stations line ↔
      s ∈ r.stations ∧ s ∉ (r.non_operational_stations line).getD [] := by
  rw [ProductionRotation.get_operational_stations,
    (List.perm_insertionSort _ _).mem_iff, List.mem_filter]
  simp

/-! ### Facts about `valid_fixed` and `remaining_for_pairing` -/

theorem mem_valid_fixed {r : ProductionRotation} {line : String} {s : Int} :
    s ∈ r.valid_fixed line ↔
      s ∈ (r.fixed_stations line).getD [] ∧ s ∈ r.get_operational_stations line := by
  rw [ProductionRotation.valid_fixed, List.mem_filter]
  simp

theorem valid_fixed_nodup {r : ProductionRotation} (h : WF r) (line : String) :
    (r.valid_fixed line).Nodup := by
  rw [ProductionRotation.valid_fixed]
  refine List.Nodup.filter _ ?_
  cases hfs : r.fixed_stations line with
  | none => simp
  | some l => simpa using (h.2.2.2 line l hfs).nodup

theorem valid_fixed_sorted_lt {r : ProductionRotation} (h : WF r) (line : String) :
    (r.valid_fixed line).Sorted (· < ·) := by
  rw [ProductionRotation.valid_fixed]
  refine List.Sorted.filter _ ?_
  cases hfs : r.fixed_stations line with
  | none => simp
  | some l => simpa using h.2.2.2 line l hfs

theorem mem_remaining {r : ProductionRotation} {line : String} {s : Int} :
    s ∈ r.remaining_for_pairing line ↔
      s ∈ r.get_operational_stations line ∧ s ∉ r.valid_fixed line := by
  rw [ProductionRotation.remaining_for_pairing, List.mem_filter]
  simp

theorem remaining_sorted_lt {r : ProductionRotation} (h : WF r) (line : String) :
    (r.remaining_for_pairing line).Sorted (· < ·) :=
  List.Sorted.filter _ (get_operational_sorted_lt h.2.1 line)

theorem sortDedup_remaining {r : ProductionRotation} (h : WF r) (line : String) :
    sortDedup (r.remaining_for_pairing line) = r.remaining_for_pairing line :=
  sortDedup_eq_self (remaining_sorted_lt h line)

/-! ### Relating the string output to the integer pairs -/

theorem generate_pairs_eq_core (r : ProductionRotation) (line : String) :
    r.generate_pairs line =
      (r.generate_pairs_core line).map (fun p => pairStr p.1 p.2) := by
  rw [ProductionRotation.generate_pairs, ProductionRotation.generate_pairs_core]
  by_cases h1 : (r.get_operational_stations line).isEmpty = true
  · simp [h1]
  · rw [if_neg h1, if_neg h1]
    by_cases h2 : line = "C"
    · rw [if_pos h2, if_pos h2, List.map_append, List.map_map, mirror_pair_eq_core]
      rfl
    · rw [if_neg h2, if_neg h2, mirror_pair_eq_core]

end ProductionRotation

/-! ### Counting stations across the output of `generate_pairs` -/

namespace ProductionRotation

theorem specRemaining_C (r : ProductionRotation) :
    r.specRemaining "C" = r.remaining_for_pairing "C" := by
  rw [ProductionRotation.specRemaining, ProductionRotation.specValidFixed, if_pos rfl,
    ProductionRotation.remaining_for_pairing]

theorem specRemaining_of_ne (r : ProductionRotation) {line : String} (h : line ≠ "C") :
    r.specRemaining line = r.get_operational_stations line := by
  rw [ProductionRotation.specRemaining, ProductionRotation.specValidFixed, if_neg h]
  refine List.filter_eq_self.mpr ?_
  intro a ha
  simp

theorem generate_pairs_core_countP_eq_one {r : ProductionRotation} (h : WF r)
    {line : String} {s : Int} (hs : s ∈ r.get_operational_stations line) :
    (r.generate_pairs_core line).countP (fun p => decide (p.1 = s ∨ p.2 = s)) = 1 := by
  have hne : ¬((r.get_operational_stations line).isEmpty = true) := by
    rw [List.isEmpty_iff]
    intro he
    rw [he] at hs
    exact List.not_mem_nil s hs
  rw [ProductionRotation.generate_pairs_core, if_neg hne]
  by_cases hC : line = "C"
  · rw [if_pos hC, List.countP_append, countP_self_pairs (valid_fixed_nodup h line) s]
    by_cases hvf : s ∈ r.valid_fixed line
    · rw [if_pos hvf]
      have hz : s ∉ sortDedup (r.remaining_for_pairing line) := by
        rw [sortDedup_remaining h line, mem_remaining]
        rintro ⟨-, habs⟩
        exact habs hvf
      rw [mirror_pair_core_countP_eq_zero hz]
    · rw [if_neg hvf]
      have hm : s ∈ sortDedup (r.remaining_for_pairing line) := by
        rw [sortDedup_remaining h line, mem_remaining]
        exact ⟨hs, hvf⟩
      rw [mirror_pair_core_countP_eq_one hm]
  · rw [if_neg hC]
    have hm : s ∈ sortDedup (r.get_operational_stations line) := by
      rw [sortDedup_eq_self (get_operational_sorted_lt h.2.1 line)]
      exact hs
    exact mirror_pair_core_countP_eq_one hm

theorem mem_of_mem_generate_pairs_core {r : ProductionRotation} {line : String}
    {p : Int × Int} (hp : p ∈ r.generate_pairs_core line) :
    p.1 ∈ r.get_operational_stations line ∧ p.2 ∈ r.get_operational_stations line := by
  rw [ProductionRotation.generate_pairs_core] at hp
  by_cases hne : (r.get_operational_stations line).isEmpty = true
  · rw [if_pos hne] at hp
    exact absurd hp (List.not_mem_nil p)
  · rw [if_neg hne] at hp
    by_cases hC : line = "C"
    · rw [if_pos hC] at hp
      rcases List.mem_append.mp hp with hp | hp
      · obtain ⟨t, ht, rfl⟩ := List.mem_map.mp hp
        have hop := (mem_valid_fixed.mp ht).2
        exact ⟨hop, hop⟩
      · obtain ⟨h1, h2⟩ := mem_of_mem_mirror_pair_core hp
        rw [mem_sortDedup] at h1 h2
        exact ⟨(mem_remaining.mp h1).1, (mem_remaining.mp h2).1⟩
    · rw [if_neg hC] at hp
      obtain ⟨h1, h2⟩ := mem_of_mem_mirror_pair_core hp
      rw [mem_sortDedup] at h1 h2
      exact ⟨h1, h2⟩

theorem generate_pairs_core_countP_eq_zero {r : ProductionRotation} {line : String}
    {s : Int} (hs : s ∉ r.get_operational_stations line) :
    (r.generate_pairs_core line).countP (fun p => decide (p.1 = s ∨ p.2 = s)) = 0 := by
  rw [List.countP_eq_zero]
  intro p hp
  obtain ⟨h1, h2⟩ := mem_of_mem_generate_pairs_core hp
  simp only [decide_eq_true_eq]
  intro hor
  rcases hor with hl | hl
  · exact hs (hl ▸ h1)
  · exact hs (hl ▸ h2)

theorem generate_pairs_core_length {r : ProductionRotation} (h : WF r) (line : String) :
    (r.generate_pairs_core line).length =
      (r.specValidFixed line).length + ((r.specRemaining line).length + 1) / 2 := by
  rw [ProductionRotation.generate_pairs_core]
  by_cases hne : (r.get_operational_stations line).isEmpty = true
  · rw [if_pos hne]
    have hop : r.get_operational_stations line = [] := List.isEmpty_iff.mp hne
    have hvf0 : r.valid_fixed line = [] := by
      rw [ProductionRotation.valid_fixed, hop]
      refine List.filter_eq_nil_iff.mpr ?_
      intro a ha
      simp
    have hvf : r.specValidFixed line = [] := by
      rw [ProductionRotation.specValidFixed]
      by_cases hC : line = "C"
      · rw [if_pos hC, hvf0]
      · rw [if_neg hC]
    have hrem : r.specRemaining line = [] := by
      rw [ProductionRotation.specRemaining, hop, List.filter_nil]
    rw [hvf, hrem]
    simp
  · rw [if_neg hne]
    by_cases hC : line = "C"
    · subst hC
      rw [if_pos rfl, List.length_append, List.length_map, mirror_pair_core_length,
        sortDedup_remaining h "C", ProductionRotation.specValidFixed, if_pos rfl,
        specRemaining_C]
    · rw [if_neg hC, mirror_pair_core_length,
        sortDedup_eq_self (get_operational_sorted_lt h.2.1 line),
        ProductionRotation.specValidFixed, if_neg hC, specRemaining_of_ne r hC,
        List.length_nil, Nat.zero_add]

end ProductionRotation

/-! ### The claims -/

/-- C1: for every configuration reachable through the setters and every
line, every operational station appears in exactly one pair of the
`generate_pairs` output — either a fixed self-pair or a mirror pair — no
station is dropped or duplicated, and the total number of pairs is
`|validFixed| + ceil(|remaining| / 2)` with
`remaining = operational − validFixed`. -/
theorem C1_operational_exactly_once (r : ProductionRotation) (h : WF r) (line : String) :
    r.generate_pairs line = (r.generate_pairs_core line).map (fun p => pairStr p.1 p.2) ∧
    (∀ s ∈ r.get_operational_stations line,
      (r.generate_pairs_core line).countP (fun p => decide (p.1 = s ∨ p.2 = s)) = 1) ∧
    (r.generate_pairs line).length =
      (r.specValidFixed line).length + ((r.specRemaining line).length + 1) / 2 := by
  refine ⟨ProductionRotation.generate_pairs_eq_core r line, ?_, ?_⟩
  · intro s hs
    exact ProductionRotation.generate_pairs_core_countP_eq_one h hs
  · rw [ProductionRotation.generate_pairs_eq_core r line, List.length_map]
    exact ProductionRotation.generate_pairs_core_length h line

/-- Witness for C1 at a concrete state: line C with station 5 down and
station 3 accommodated; station 7 is mirror-paired exactly once and the
output has `1 + ceil(18/2) = 10` pairs. -/
theorem C1_operational_exactly_once_witness :
    (((ProductionRotation.init.set_non_operational "C" [5]).set_fixed "C"
        [3]).generate_pairs_core "C").countP (fun p => decide (p.1 = 7 ∨ p.2 = 7)) = 1 ∧
    (((ProductionRotation.init.set_non_operational "C" [5]).set_fixed "C"
        [3]).generate_pairs "C").length = 10 := by
  have hwf : WF ((ProductionRotation.init.set_non_operational "C" [5]).set_fixed "C" [3]) :=
    ProductionRotation.WF_applyOp
      (ProductionRotation.WF_applyOp ProductionRotation.WF_init (ConfigOp.setNonOp "C" [5]))
      (ConfigOp.setFixed "C" [3])
  have h := C1_operational_exactly_once _ hwf "C"
  refine ⟨h.2.1 7 (by decide), ?_⟩
  rw [h.2.2]
  decide

/-- C2: on line C, `generate_pairs` emits one self-pair per station of
`validFixed = fixed ∩ operational` (a fixed station that is not operational
is silently dropped), in ascending order and before all mirror pairs of
`operational − validFixed`; on every other line the output is
`mirror_pair(operational)` and the fixed configuration is never consulted. -/
theorem C2_line_C_accommodation (r : ProductionRotation) (h : WF r) :
    r.generate_pairs "C" =
      (r.valid_fixed "C").map (fun s => pairStr s s) ++
        ProductionRotation.mirror_pair (r.remaining_for_pairing "C") ∧
    (∀ s, s ∈ r.valid_fixed "C" ↔
      s ∈ (r.fixed_stations "C").getD [] ∧ s ∈ r.get_operational_stations "C") ∧
    (r.valid_fixed "C").Sorted (· < ·) ∧
    (∀ line, line ≠ "C" →
      r.generate_pairs line =
        ProductionRotation.mirror_pair (r.get_operational_stations line) ∧
      ∀ f, ProductionRotation.generate_pairs { r with fixed_stations := f } line =
        r.generate_pairs line) := by
  refine ⟨?_, fun s => ProductionRotation.mem_valid_fixed,
    ProductionRotation.valid_fixed_sorted_lt h "C", ?_⟩
  · rw [ProductionRotation.generate_pairs]
    by_cases hne : (r.get_operational_stations "C").isEmpty = true
    · rw [if_pos hne]
      have hop : r.get_operational_stations "C" = [] := List.isEmpty_iff.mp hne
      have hvf : r.valid_fixed "C" = [] := by
        rw [ProductionRotation.valid_fixed, hop]
        refine List.filter_eq_nil_iff.mpr ?_
        intro a ha
        simp
      have hrem : r.remaining_for_pairing "C" = [] := by
        rw [ProductionRotation.remaining_for_pairing, hop, List.filter_nil]
      rw [hvf, hrem]
      decide
    · rw [if_neg hne, if_pos rfl]
  · intro line hC
    constructor
    · rw [ProductionRotation.generate_pairs]
      by_cases hne : (r.get_operational_stations line).isEmpty = true
      · rw [if_pos hne, List.isEmpty_iff.mp hne]
        decide
      · rw [if_neg hne, if_neg hC]
    · intro f
      rw [ProductionRotation.generate_pairs, ProductionRotation.generate_pairs]
      have hop : ProductionRotation.get_operational_stations { r with fixed_stations := f }
          line = r.get_operational_stations line := rfl
      rw [hop]
      by_cases hne : (r.get_operational_stations line).isEmpty = true
      · rw [if_pos hne, if_pos hne]
      · rw [if_neg hne, if_neg hne, if_neg hC, if_neg hC]

/-- Witness for C2 at a concrete state: station 7 both accommodated and
down on line C (the membership test shows it is dropped from `validFixed`),
and line B ignores the fixed configuration. -/
theorem C2_line_C_accommodation_witness :
    ((ProductionRotation.init.set_non_operational "C" [7]).set_fixed "C" [7, 3]).generate_pairs
        "C" =
      (((ProductionRotation.init.set_non_operational "C" [7]).set_fixed "C"
            [7, 3]).valid_fixed "C").map (fun s => pairStr s s) ++
        ProductionRotation.mirror_pair
          (((ProductionRotation.init.set_non_operational "C" [7]).set_fixed "C"
            [7, 3]).remaining_for_pairing "C") ∧
    ¬(7 ∈ ((ProductionRotation.init.set_non_operational "C" [7]).set_fixed "C"
        [7, 3]).valid_fixed "C") ∧
    ProductionRotation.generate_pairs
        { (ProductionRotation.init.set_non_operational "C" [7]).set_fixed "C" [7, 3] with
          fixed_stations := fun _ => some [1, 2] } "B" =
      ((ProductionRotation.init.set_non_operational "C" [7]).set_fixed "C"
        [7, 3]).generate_pairs "B" := by
  have hwf : WF ((ProductionRotation.init.set_non_operational "C" [7]).set_fixed "C" [7, 3]) :=
    ProductionRotation.WF_applyOp
      (ProductionRotation.WF_applyOp ProductionRotation.WF_init (ConfigOp.setNonOp "C" [7]))
      (ConfigOp.setFixed "C" [7, 3])
  have h := C2_line_C_accommodation _ hwf
  refine ⟨h.1, ?_, (h.2.2.2 "B" (by decide)).2 (fun _ => some [1, 2])⟩
  rw [h.2.1 7]
  rintro ⟨-, habs⟩
  revert habs
  decide

/-- C3 as stated is false on the code: `generate_schedule` computes the
date stamp internally from the wall clock (`datetime.now()`), so two calls
on objects with identical nonOperational and fixed configurations made
under different wall-clock dates produce different outputs. -/
theorem C3_counterexample :
    ProductionRotation.init.non_operational_stations =
        ProductionRotation.init.non_operational_stations ∧
    ProductionRotation.init.fixed_stations = ProductionRotation.init.fixed_stations ∧
    ProductionRotation.generate_schedule "01/01/2025" ProductionRotation.init ≠
      ProductionRotation.generate_schedule "01/02/2025" ProductionRotation.init := by
  refine ⟨rfl, rfl, ?_⟩
  intro h
  have := congrArg Prod.fst h
  revert this
  decide

/-- C3 amended: the date stamp is read from the wall clock inside
`generate_schedule`, not supplied by the caller; given an equal wall-clock
reading, two objects with identical nonOperational and fixed configurations
produce identical outputs, and the schedule mapping (the non-date component)
is independent of the clock reading. -/
theorem C3_pure_given_clock (now : String) (r₁ r₂ : ProductionRotation)
    (h₁ : WF r₁) (h₂ : WF r₂)
    (hno : r₁.non_operational_stations = r₂.non_operational_stations)
    (hf : r₁.fixed_stations = r₂.fixed_stations) :
    ProductionRotation.generate_schedule now r₁ =
      ProductionRotation.generate_schedule now r₂ ∧
    ∀ now₁ now₂,
      (ProductionRotation.generate_schedule now₁ r₁).2 =
        (ProductionRotation.generate_schedule now₂ r₂).2 := by
  have heq : r₁ = r₂ := by
    obtain ⟨hl1, hs1, -, -⟩ := h₁
    obtain ⟨hl2, hs2, -, -⟩ := h₂
    cases r₁
    cases r₂
    simp_all
  subst heq
  exact ⟨rfl, fun _ _ => rfl⟩

/-- Witness for the amended C3 at a concrete pair of calls. -/
theorem C3_pure_given_clock_witness :
    ProductionRotation.generate_schedule "01/01/2025" ProductionRotation.init =
      ProductionRotation.generate_schedule "01/01/2025" ProductionRotation.init ∧
    (ProductionRotation.generate_schedule "03/04/2025" ProductionRotation.init).2 =
      (ProductionRotation.generate_schedule "05/06/2025" ProductionRotation.init).2 :=
  ⟨(C3_pure_given_clock "01/01/2025" _ _ ProductionRotation.WF_init
      ProductionRotation.WF_init rfl rfl).1,
    (C3_pure_given_clock "01/01/2025" _ _ ProductionRotation.WF_init
      ProductionRotation.WF_init rfl rfl).2 "03/04/2025" "05/06/2025"⟩

/-- C4: `mirror_pair` sorts and deduplicates its input into `s[0..n-1]`,
its `i`-th output (for `i < n / 2`) is the pair `(s[i], s[n-1-i])` rendered
low-high, a middle self-pair follows last when `n` is odd, and the output is
left in generation order; `n = 0` gives the empty list and `n = 1` a single
self-pair. -/
theorem C4_mirror_pair_algorithm (l : List Int) :
    (ProductionRotation.mirror_pair l).length = ((sortDedup l).length + 1) / 2 ∧
    (∀ i, i < (sortDedup l).length / 2 →
      (ProductionRotation.mirror_pair l).getD i "" =
        pairStr ((sortDedup l).getD i 0)
          ((sortDedup l).getD ((sortDedup l).length - 1 - i) 0) ∧
      (sortDedup l).getD i 0 ≤ (sortDedup l).getD ((sortDedup l).length - 1 - i) 0) ∧
    ((sortDedup l).length % 2 = 1 →
      (ProductionRotation.mirror_pair l).getD ((sortDedup l).length / 2) "" =
        pairStr ((sortDedup l).getD ((sortDedup l).length / 2) 0)
          ((sortDedup l).getD ((sortDedup l).length / 2) 0)) ∧
    ((sortDedup l).length = 0 → ProductionRotation.mirror_pair l = []) ∧
    ((sortDedup l).length = 1 →
      ProductionRotation.mirror_pair l =
        [pairStr ((sortDedup l).getD 0 0) ((sortDedup l).getD 0 0)]) := by
  refine ⟨?_, ?_, ?_, ?_, ?_⟩
  · rw [ProductionRotation.mirror_pair_eq_core, List.length_map,
      ProductionRotation.mirror_pair_core_length]
  · intro i hi
    constructor
    · rw [ProductionRotation.mirror_pair,
        List.getD_append _ _ _ i (by rw [List.length_map, List.length_range]; exact hi),
        List.getD_eq_getElem _ _ (by rw [List.length_map, List.length_range]; exact hi),
        List.getElem_map, List.getElem_range]
    · have hsorted := sortDedup_sorted_le l
      rcases Nat.lt_or_ge i ((sortDedup l).length - 1 - i) with hlt | hge
      · rw [List.getD_eq_getElem _ _ (by omega), List.getD_eq_getElem _ _ (by omega)]
        exact List.pairwise_iff_getElem.mp hsorted i ((sortDedup l).length - 1 - i)
          (by omega) (by omega) hlt
      · have heq : i = (sortDedup l).length - 1 - i := by omega
        rw [← heq]
  · intro hodd
    rw [ProductionRotation.mirror_pair,
      List.getD_append_right _ _ _ _ (by rw [List.length_map, List.length_range]),
      if_pos (by omega : (sortDedup l).length % 2 ≠ 0),
      List.length_map, List.length_range, Nat.sub_self]
    rfl
  · intro h0
    simp [ProductionRotation.mirror_pair, h0]
  · intro h1
    simp [ProductionRotation.mirror_pair, h1]

/-- Witness for C4 at the concrete input `[3, 1, 2]`. -/
theorem C4_mirror_pair_algorithm_witness :
    (ProductionRotation.mirror_pair [3, 1, 2]).length = 2 ∧
    (ProductionRotation.mirror_pair [3, 1, 2]).getD 0 "" = "1-3" ∧
    (ProductionRotation.mirror_pair [3, 1, 2]).getD 1 "" = "2-2" := by
  have h := C4_mirror_pair_algorithm [3, 1, 2]
  refine ⟨?_, ?_, ?_⟩
  · rw [h.1]
    decide
  · rw [(h.2.1 0 (by decide)).1]
    decide
  · have hmid := h.2.2.1 (by decide)
    have hix : (sortDedup [3, 1, 2]).length / 2 = 1 := by decide
    rw [hix] at hmid
    rw [hmid]
    decide

/-- C5: `get_operational_stations` returns exactly the ascending sequence
of universe stations not in the line's nonOperational set; entries of
nonOperational outside the universe have no effect (the computation is an
intersection with the universe). -/
theorem C5_operational_stations (r : ProductionRotation) (h : r.stations = STATIONS)
    (line : String) :
    r.get_operational_stations line =
      STATIONS.filter
        (fun s => decide (s ∉ (r.non_operational_stations line).getD [])) ∧
    (r.get_operational_stations line).Sorted (· < ·) ∧
    (∀ s, s ∈ r.get_operational_stations line ↔
      s ∈ STATIONS ∧ s ∉ (r.non_operational_stations line).getD []) ∧
    r.get_operational_stations line =
      STATIONS.filter (fun s => decide (s ∉
        ((r.non_operational_stations line).getD []).filter
          (fun t => decide (t ∈ STATIONS)))) := by
  refine ⟨ProductionRotation.get_operational_eq_filter h line,
    ProductionRotation.get_operational_sorted_lt h line, ?_, ?_⟩
  · intro s
    rw [ProductionRotation.mem_get_operational, h]
  · rw [ProductionRotation.get_operational_eq_filter h line]
    refine List.filter_congr ?_
    intro a ha
    have hiff : a ∈ ((r.non_operational_stations line).getD []).filter
        (fun t => decide (t ∈ STATIONS)) ↔
        a ∈ (r.non_operational_stations line).getD [] := by
      rw [List.mem_filter]
      simp [ha]
    simp only [decide_eq_decide]
    exact not_congr hiff.symm

/-- Witness for C5 at a concrete state with the out-of-universe entry 25
in the nonOperational set. -/
theorem C5_operational_stations_witness :
    (ProductionRotation.init.set_non_operational "B" [3, 25]).get_operational_stations "B" =
      STATIONS.filter (fun s => decide (s ∉
        (((ProductionRotation.init.set_non_operational "B"
          [3, 25]).non_operational_stations "B").getD []))) ∧
    ((7 : Int) ∈ (ProductionRotation.init.set_non_operational "B"
        [3, 25]).get_operational_stations "B" ↔
      (7 : Int) ∈ STATIONS ∧ (7 : Int) ∉
        (((ProductionRotation.init.set_non_operational "B"
          [3, 25]).non_operational_stations "B").getD [])) := by
  have h := C5_operational_stations
    (ProductionRotation.init.set_non_operational "B" [3, 25]) rfl "B"
  exact ⟨h.1, h.2.2.1 7⟩

/-- C6: `mirror_pair` is order-independent — permuting its input (lists
with duplicates included) leaves the output unchanged — and applying it to
the already sorted-deduplicated input gives the same result. -/
theorem C6_mirror_pair_order_independent :
    (∀ l₁ l₂ : List Int, l₁.Perm l₂ →
      ProductionRotation.mirror_pair l₁ = ProductionRotation.mirror_pair l₂) ∧
    (∀ l : List Int,
      ProductionRotation.mirror_pair (sortDedup l) = ProductionRotation.mirror_pair l) := by
  constructor
  · intro l₁ l₂ hp
    rw [ProductionRotation.mirror_pair, ProductionRotation.mirror_pair,
      sortDedup_eq_of_perm hp]
  · intro l
    rw [ProductionRotation.mirror_pair, ProductionRotation.mirror_pair, sortDedup_idem]

/-- Witness for C6 at a concrete permutation pair with duplicates. -/
theorem C6_mirror_pair_order_independent_witness :
    ProductionRotation.mirror_pair [3, 1, 2, 1] =
      ProductionRotation.mirror_pair [1, 1, 2, 3] ∧
    ProductionRotation.mirror_pair (sortDedup [3, 1, 2, 1]) =
      ProductionRotation.mirror_pair [3, 1, 2, 1] :=
  ⟨C6_mirror_pair_order_independent.1 [3, 1, 2, 1] [1, 1, 2, 3] (by decide),
    C6_mirror_pair_order_independent.2 [3, 1, 2, 1]⟩

/-- C7: when the operational station set of a line is empty — in particular
when nonOperational covers the whole universe — `generate_pairs` returns the
empty list (the embedding is a total function: no exception or other error
signal exists). -/
theorem C7_no_operational_returns_empty (r : ProductionRotation) (line : String) :
    (r.get_operational_stations line = [] → r.generate_pairs line = []) ∧
    (r.stations = STATIONS →
      (∀ s ∈ STATIONS, s ∈ (r.non_operational_stations line).getD []) →
      r.get_operational_stations line = [] ∧ r.generate_pairs line = []) := by
  have hbase : r.get_operational_stations line = [] → r.generate_pairs line = [] := by
    intro hop
    rw [ProductionRotation.generate_pairs, if_pos (by rw [List.isEmpty_iff]; exact hop)]
  refine ⟨hbase, ?_⟩
  intro hst hcov
  have hop : r.get_operational_stations line = [] := by
    rw [ProductionRotation.get_operational_eq_filter hst line]
    refine List.filter_eq_nil_iff.mpr ?_
    intro a ha
    simp [hcov a ha]
  exact ⟨hop, hbase hop⟩

/-- Witness for C7 at a concrete state with every universe station down. -/
theorem C7_no_operational_returns_empty_witness :
    (ProductionRotation.init.set_non_operational "L" STATIONS).get_operational_stations "L"
        = [] ∧
    (ProductionRotation.init.set_non_operational "L" STATIONS).generate_pairs "L" = [] :=
  (C7_no_operational_returns_empty
    (ProductionRotation.init.set_non_operational "L" STATIONS) "L").2 rfl (by decide)

/-- C8: after any sequence of `set_non_operational` / `set_fixed` calls,
every stored configuration list is deduplicated and sorted ascending. -/
theorem C8_setters_store_sorted_dedup (ops : List ConfigOp) (line : String) (l : List Int)
    (h : (applyOps ProductionRotation.init ops).non_operational_stations line = some l ∨
      (applyOps ProductionRotation.init ops).fixed_stations line = some l) :
    l.Nodup ∧ l.Sorted (· ≤ ·) := by
  have hwf := ProductionRotation.WF_applyOps ProductionRotation.WF_init ops
  rcases h with h | h
  · have hsor := hwf.2.2.1 line l h
    exact ⟨hsor.nodup, hsor.imp (fun hab => le_of_lt hab)⟩
  · have hsor := hwf.2.2.2 line l h
    exact ⟨hsor.nodup, hsor.imp (fun hab => le_of_lt hab)⟩

/-- Witness for C8: one setter call with an unsorted duplicate-laden input. -/
theorem C8_setters_store_sorted_dedup_witness :
    (applyOps ProductionRotation.init
        [ConfigOp.setNonOp "B" [3, 1, 3]]).non_operational_stations "B" = some [1, 3] ∧
    List.Nodup ([1, 3] : List Int) ∧ List.Sorted (· ≤ ·) ([1, 3] : List Int) :=
  ⟨by decide,
    C8_setters_store_sorted_dedup [ConfigOp.setNonOp "B" [3, 1, 3]] "B" [1, 3]
      (Or.inl (by decide))⟩

/-- C9: a line whose nonOperational entry was never set defaults to the
empty set: the operational stations are the full universe and every one of
the twenty stations is paired exactly once by `generate_pairs`. -/
theorem C9_unset_line_defaults_to_full_universe (r : ProductionRotation) (h : WF r)
    (line : String) (hnone : r.non_operational_stations line = none) :
    r.get_operational_stations line = STATIONS ∧
    ∀ s ∈ STATIONS,
      (r.generate_pairs_core line).countP (fun p => decide (p.1 = s ∨ p.2 = s)) = 1 := by
  have hop : r.get_operational_stations line = STATIONS := by
    rw [ProductionRotation.get_operational_eq_filter h.2.1 line, hnone]
    simp
  refine ⟨hop, fun s hs => ProductionRotation.generate_pairs_core_countP_eq_one h ?_⟩
  rw [hop]
  exact hs

/-- Witness for C9 at a concrete state where only the fixed set of line C
was ever configured. -/
theorem C9_unset_line_defaults_to_full_universe_witness :
    (ProductionRotation.init.set_fixed "C" [3]).get_operational_stations "C" = STATIONS ∧
    ((ProductionRotation.init.set_fixed "C" [3]).generate_pairs_core "C").countP
      (fun p => decide (p.1 = 20 ∨ p.2 = 20)) = 1 := by
  have h := C9_unset_line_defaults_to_full_universe
    (ProductionRotation.init.set_fixed "C" [3])
    (ProductionRotation.WF_applyOp ProductionRotation.WF_init (ConfigOp.setFixed "C" [3]))
    "C" rfl
  exact ⟨h.1, h.2 20 (by decide)⟩

/-- C10: on line C a configured fixed station that is not operational — in
particular an identifier outside the universe — is excluded from
`validFixed` and never appears in any output pair; every self-pair emitted
from the fixed set has its station in the operational set. -/
theorem C10_invalid_fixed_never_paired (r : ProductionRotation) (s : Int)
    (_hs : s ∈ (r.fixed_stations "C").getD [])
    (hns : s ∉ r.get_operational_stations "C") :
    s ∉ r.valid_fixed "C" ∧
    (r.generate_pairs_core "C").countP (fun p => decide (p.1 = s ∨ p.2 = s)) = 0 ∧
    ∀ t ∈ r.valid_fixed "C", t ∈ r.get_operational_stations "C" := by
  refine ⟨?_, ProductionRotation.generate_pairs_core_countP_eq_zero hns, ?_⟩
  · rw [ProductionRotation.mem_valid_fixed]
    rintro ⟨-, habs⟩
    exact hns habs
  · intro t ht
    exact (ProductionRotation.mem_valid_fixed.mp ht).2

/-- Witness for C10 at a concrete state with the out-of-universe station 25
configured as fixed on line C. -/
theorem C10_invalid_fixed_never_paired_witness :
    (25 : Int) ∈ ((ProductionRotation.init.set_fixed "C" [25]).fixed_stations "C").getD [] ∧
    (25 : Int) ∉ (ProductionRotation.init.set_fixed "C" [25]).valid_fixed "C" ∧
    ((ProductionRotation.init.set_fixed "C" [25]).generate_pairs_core "C").countP
      (fun p => decide (p.1 = 25 ∨ p.2 = 25)) = 0 := by
  have h := C10_invalid_fixed_never_paired (ProductionRotation.init.set_fixed "C" [25]) 25
    (by decide) (by decide)
  exact ⟨by decide, h.1, h.2.1⟩
